import Mathlib

/-!
Verification development for the accord lease-coordination service.

The embedding covers the server-side request-validation / translation layer
(`internal/service/service.go`) and the client library (`accord.go`):
configuration normalization, the local completion cache bootstrap, the
client-side `Acquire` flow and `Close`.

Go machine integers are modelled as `Nat` / `Int` with explicit `% 2^32`
where a Go conversion truncates; fallible Go code returns `Except` /
`Option`; the storage backend and the remote `Acquire` / `List` calls are
passed in as oracle functions, and the number of oracle invocations is
threaded explicitly so that "the backend is never called" is provable.
-/

namespace Accord

/-- A string-to-string metadata map, as carried on every wire message. -/
abbrev Metadata := List (String × String)

/-- A Go `time.Time` instant: seconds since the Unix epoch (`Unix()`) plus
the nanosecond offset within the second (`Nanosecond()`, in `[0, 1e9)`;
the bound is not needed by the development and is not imposed). -/
structure GoTime where
  sec : Int
  nsec : Nat
  deriving DecidableEq, Repr

/-- Wire `Status` enumeration of an acquire response: OK / HELD / DONE. -/
inductive Status where
  | OK
  | HELD
  | DONE
  deriving DecidableEq, Repr

/-- The wire handle record (`rpc.Handle`): 16 raw identifier bytes, name,
namespace, expiration in epoch-milliseconds, acquisition count, metadata. -/
structure WireHandle where
  id : List Nat
  name : String
  nspace : String
  expTime : Int
  numAcquired : Nat
  metadata : Metadata
  deriving DecidableEq, Repr

/-- Wire `rpc.AcquireRequest`: owner, name, namespace, ttl (whole seconds,
unsigned 32-bit on the wire), metadata. -/
structure AcquireRequest where
  owner : String
  name : String
  nspace : String
  ttl : Nat
  metadata : Metadata
  deriving DecidableEq, Repr

/-- Wire `rpc.AcquireResponse`: a status and an optional handle payload. -/
structure AcquireResponse where
  status : Status
  handle : Option WireHandle
  deriving DecidableEq, Repr

/-- Wire `rpc.RenewRequest`: owner, raw handle-identifier bytes, ttl, metadata. -/
structure RenewRequest where
  owner : String
  handleId : List Nat
  ttl : Nat
  metadata : Metadata
  deriving DecidableEq, Repr

/-- Wire `rpc.DoneRequest`: owner, raw handle-identifier bytes, metadata. -/
structure DoneRequest where
  owner : String
  handleId : List Nat
  metadata : Metadata
  deriving DecidableEq, Repr

/-- Backend record `backend.HandleData`: the backend's record of a lease, with a 16-byte
identifier, name, namespace, absolute expiration time, acquisition count
and metadata. -/
structure HandleData where
  id : List Nat
  name : String
  nspace : String
  expTime : GoTime
  numAcquired : Nat
  metadata : Metadata
  deriving DecidableEq, Repr

/-- An error produced by the service adapter: either a gRPC
invalid-argument status created by the validation layer, or an error
propagated verbatim from the backend. -/
inductive SvcError where
  | invalidArgument (msg : String)
  | backendErr (e : String)
  deriving DecidableEq, Repr

/-- Outcome of a backend `Acquire` call: a fresh handle record, the
sentinel `accord.ErrAcquired`, the sentinel `accord.ErrDone`, or any
other error. -/
inductive AcqOutcome where
  | ok (data : HandleData)
  | errAcquired
  | errDone
  | fail (e : String)
  deriving DecidableEq, Repr

/-- Modelled from the spec: `uuid.FromBytes` of the vendored google/uuid
dependency (not part of this repository's sources) parses a byte slice as
a unique identifier exactly when it is 16 bytes long. -/
def uuidFromBytes (bs : List Nat) : Option (List Nat) :=
  if bs.length = 16 then some bs else none

/-- Function `expTime` in service.go: the absolute expiration is the server's
current time plus the requested ttl taken as whole seconds
(`time.Now().Add(time.Second * time.Duration(ttl))`). -/
def expTime (now : GoTime) (ttl : Nat) : GoTime :=
  { sec := now.sec + ttl, nsec := now.nsec }

/-- Function `convertHandle` in service.go: translate a backend record into the wire
shape; the expiration becomes `Unix()*1000 + Nanosecond()/1e6`
epoch-milliseconds, and the acquisition count passes through a `uint32`
conversion. -/
def convertHandle (data : HandleData) : WireHandle :=
  { id := data.id
    name := data.name
    nspace := data.nspace
    expTime := data.expTime.sec * 1000 + (data.expTime.nsec / 1000000 : Nat)
    numAcquired := data.numAcquired % 2 ^ 32
    metadata := data.metadata }

/-- The backend's `Acquire` operation as an oracle: owner, namespace, name,
expiration time, metadata ↦ outcome. -/
abbrev AcquireBackend := String → String → String → GoTime → Metadata → AcqOutcome

/-- The backend's `Renew` (resp. `Done` with the time argument dropped)
operation as an oracle returning `none` on success or an error. -/
abbrev RenewBackend := String → List Nat → GoTime → Metadata → Option String

/-- The backend's `Done` operation as an oracle: owner, parsed handle id,
metadata ↦ optional error. -/
abbrev DoneBackend := String → List Nat → Metadata → Option String

/-- Procedure `service.Acquire`: validate owner and name, then call the backend once
and translate its three-way outcome into a wire response. The second
component counts backend invocations (the Go code performs exactly one
after validation, none when validation fails). -/
def serviceAcquire (b : AcquireBackend) (now : GoTime) (req : AcquireRequest) :
    Except SvcError AcquireResponse × Nat :=
  if req.owner = "" then
    (.error (.invalidArgument "invalid owner"), 0)
  else if req.name = "" then
    (.error (.invalidArgument "invalid name"), 0)
  else
    match b req.owner req.nspace req.name (expTime now req.ttl) req.metadata with
    | .errDone => (.ok { status := .DONE, handle := none }, 1)
    | .errAcquired => (.ok { status := .HELD, handle := none }, 1)
    | .fail e => (.error (.backendErr e), 1)
    | .ok data => (.ok { status := .OK, handle := some (convertHandle data) }, 1)

/-- Procedure `service.Renew`: validate owner and the 16-byte handle identifier, then
call the backend once; the second component counts backend invocations. -/
def serviceRenew (b : RenewBackend) (now : GoTime) (req : RenewRequest) :
    Except SvcError Unit × Nat :=
  if req.owner = "" then
    (.error (.invalidArgument "invalid owner"), 0)
  else
    match uuidFromBytes req.handleId with
    | none => (.error (.invalidArgument "invalid handle ID"), 0)
    | some handleID =>
      match b req.owner handleID (expTime now req.ttl) req.metadata with
      | some e => (.error (.backendErr e), 1)
      | none => (.ok (), 1)

/-- Procedure `service.Done`: validate owner and the 16-byte handle identifier, then
call the backend once; the second component counts backend invocations. -/
def serviceDone (b : DoneBackend) (req : DoneRequest) :
    Except SvcError Unit × Nat :=
  if req.owner = "" then
    (.error (.invalidArgument "invalid owner"), 0)
  else
    match uuidFromBytes req.handleId with
    | none => (.error (.invalidArgument "invalid handle ID"), 0)
    | some handleID =>
      match b req.owner handleID req.metadata with
      | some e => (.error (.backendErr e), 1)
      | none => (.ok (), 1)

/-- One Go nanosecond; `time.Duration` values are 64-bit nanosecond counts. -/
def nanosecond : Int := 1

/-- Go `time.Second` as a `time.Duration` (nanoseconds). -/
def second : Int := 1000000000

/-- Go `10 * time.Minute` as a `time.Duration` (nanoseconds). -/
def tenMinutes : Int := 600 * second

/-- Configuration `ClientOptions` of the client library: owner identity, namespace, lease
ttl (a `time.Duration`, i.e. a signed 64-bit nanosecond count), and the
local data directory. The `OnError` callback field carries no data the
claims touch and is omitted. -/
structure ClientOptions where
  owner : String
  nspace : String
  ttl : Int
  dir : String
  deriving DecidableEq, Repr

/-- Method `ClientOptions.ttlSeconds`: `uint32(o.TTL / time.Second)` — Go
truncated (toward-zero) division by one second, then a `uint32`
conversion keeping the low 32 bits. -/
def ClientOptions.ttlSeconds (o : ClientOptions) : Nat :=
  ((o.ttl.tdiv second) % (2 ^ 32 : Int)).toNat

/-- The zero value of `ClientOptions`, produced by Go's
`var p ClientOptions` declaration. -/
def zeroClientOptions : ClientOptions :=
  { owner := "", nspace := "", ttl := 0, dir := "" }

/-- Method `ClientOptions.norm`: copy the caller's options (the Go receiver may be
nil, yielding the zero value), then default the owner to a freshly
generated random identifier (`fresh` stands for `uuid.New().String()`),
the ttl to ten minutes when below one second, and the directory to
`"data"`. -/
def ClientOptions.norm (fresh : String) (o : Option ClientOptions) : ClientOptions :=
  let p := o.getD zeroClientOptions
  let p := if p.owner = "" then { p with owner := fresh } else p
  let p := if p.ttl < second then { p with ttl := tenMinutes } else p
  if p.dir = "" then { p with dir := "data" } else p

/-- State-passing rendering of `norm`: the Go method copies the receiver
into a local variable and mutates only the copy, so the caller's options
value (first component) is returned unchanged next to the normalized
result (second component). -/
def ClientOptions.normSt (fresh : String) (o : Option ClientOptions) :
    Option ClientOptions × ClientOptions :=
  (o, ClientOptions.norm fresh o)

/-- Modelled from the spec: the local completion cache of the repository's
`internal/cache` package (not under the given sources) is a durable
presence index of resource names; its state is the list of names present. -/
abbrev CacheState := List String

/-- Modelled from the spec: `cache.Contains(name)` is an exact presence
check. -/
def cacheContains (c : CacheState) (name : String) : Bool :=
  c.contains name

/-- Modelled from the spec: `cache.Add(name)` is an idempotent single
insertion. -/
def cacheAdd (c : CacheState) (name : String) : CacheState :=
  if c.contains name then c else c ++ [name]

/-- Modelled from the spec: `newHandle` of the repository's handle source
file (not under the given sources) packages the acquired lease identifier,
the server-echoed metadata and the client's configuration (the protocol
client it also receives is a capability, not data). -/
structure Handle where
  id : List Nat
  metadata : Metadata
  opt : ClientOptions
  deriving DecidableEq, Repr

/-- Modelled from the spec: construct a live `Handle` from exactly the
arguments the client's `Acquire` passes at its call site. -/
def newHandle (id : List Nat) (meta : Metadata) (opt : ClientOptions) : Handle :=
  { id := id, metadata := meta, opt := opt }

/-- The client's in-memory state: normalized options, the completion-cache
contents, and whether the client owns its network connection (set only by
the dialing constructor). -/
structure ClientState where
  opt : ClientOptions
  cache : CacheState
  ownCC : Bool
  deriving DecidableEq, Repr

/-- Caller-visible outcome of the client's `Acquire`: a live handle, one of
the sentinels `ErrAcquired` / `ErrDone`, a propagated transport or cache
error, or a Go runtime panic (nil-handle dereference or `uuid.Must`). -/
inductive AcqResult where
  | handle (h : Handle)
  | errAcquired
  | errDone
  | rpcFail (e : String)
  | panicked
  deriving DecidableEq, Repr

/-- The remote `Acquire` procedure as an oracle from the wire request to a
transport-level result. -/
abbrev AcquireRPC := AcquireRequest → Except String AcquireResponse

/-- The wire request the client's `Acquire` sends: the configured owner and
namespace, the given name and metadata, and the configured ttl in whole
seconds. -/
def clientAcquireRequest (c : ClientState) (name : String) (meta : Metadata) :
    AcquireRequest :=
  { owner := c.opt.owner
    name := name
    nspace := c.opt.nspace
    ttl := c.opt.ttlSeconds
    metadata := meta }

/-- Method `client.Acquire`: consult the completion cache first (returning
`ErrDone` with no remote call on a hit), otherwise issue the remote
`Acquire` once and translate the response status: HELD ↦ `ErrAcquired`,
DONE ↦ cache insert then `ErrDone`, and otherwise build a live handle via
`uuid.Must(uuid.FromBytes(res.Handle.Id))`, which panics when the handle
is absent or its identifier is not 16 bytes. Returns the result, the new
cache state, and the number of remote calls issued. -/
def clientAcquire (c : ClientState) (rpc : AcquireRPC) (name : String)
    (meta : Metadata) : AcqResult × CacheState × Nat :=
  if cacheContains c.cache name then
    (.errDone, c.cache, 0)
  else
    match rpc (clientAcquireRequest c name meta) with
    | .error e => (.rpcFail e, c.cache, 1)
    | .ok res =>
      match res.status with
      | .HELD => (.errAcquired, c.cache, 1)
      | .DONE => (.errDone, cacheAdd c.cache name, 1)
      | .OK =>
        match res.handle with
        | none => (.panicked, c.cache, 1)
        | some h =>
          match uuidFromBytes h.id with
          | none => (.panicked, c.cache, 1)
          | some hid => (.handle (newHandle hid h.metadata c.opt), c.cache, 1)

/-- Wire `ListRequest_Filter` status enumeration; only DONE is exercised by the
given sources, `ANY` stands for the remaining members. -/
inductive ListStatus where
  | ANY
  | DONE
  deriving DecidableEq, Repr

/-- Wire `proto.ListRequest_Filter`: a namespace-prefix string and a status. -/
structure ListFilter where
  pfx : String
  status : ListStatus
  deriving DecidableEq, Repr

/-- A drained server stream: the handle records received before the
terminator, and the terminator itself — `none` for a clean `io.EOF`,
`some e` for a mid-stream receive error. -/
abbrev ListStream := List WireHandle × Option String

/-- The remote `List` procedure as an oracle: the filter sent determines
either an immediate call error or the stream subsequently drained. -/
abbrev ListRPC := ListFilter → Except String ListStream

/-- The receive loop of `client.fetchDone`: for each streamed record whose
namespace equals the client's, stage its name into the write batch; a
clean end of stream flushes the staged names, a receive error propagates
and the batch is discarded (staged names are dropped). -/
def fetchLoop (ns : String) (staged : List String) :
    List WireHandle → Option String → Except String (List String)
  | [], none => .ok staged
  | [], some e => .error e
  | h :: rest, t =>
    if h.nspace = ns then fetchLoop ns (staged ++ [h.name]) rest t
    else fetchLoop ns staged rest t

/-- The filter `fetchDone` sends: DONE status with the given namespace as
the prefix. -/
def doneFilter (ns : String) : ListFilter := { pfx := ns, status := .DONE }

/-- Method `client.fetchDone`: issue one `List` call filtered to DONE status with
the configured namespace as prefix, then run the receive loop over the
stream; returns the names committed to the cache, or the first error. -/
def fetchDone (ns : String) (rpcList : ListRPC) : Except String (List String) :=
  match rpcList (doneFilter ns) with
  | .error e => .error e
  | .ok (hs, t) => fetchLoop ns [] hs t

/-- Constructor `RPCClient`: normalize options, open a fresh completion cache under
`<dir>/cache` (modelled as initially empty), run `fetchDone`; on its
failure close the cache (second component `true`) and fail construction,
otherwise return the initialized client, which does not own the network
connection. -/
def rpcClient (fresh : String) (opt : Option ClientOptions) (rpcList : ListRPC) :
    Except String ClientState × Bool :=
  match fetchDone (ClientOptions.norm fresh opt).nspace rpcList with
  | .error e => (.error e, true)
  | .ok entries =>
    (.ok { opt := ClientOptions.norm fresh opt, cache := entries, ownCC := false },
      false)

/-- Constructor `DialClient`: dial the target (`dialOK` stands for the success of
`grpc.DialContext`), wrap the connection, and on success mark the client
as owning the connection. -/
def dialClient (fresh : String) (opt : Option ClientOptions) (dialOK : Bool)
    (rpcList : ListRPC) : Except String ClientState :=
  if dialOK then
    match (rpcClient fresh opt rpcList).1 with
    | .error e => .error e
    | .ok c => .ok { c with ownCC := true }
  else
    .error "dial error"

/-- Method `client.Close` for a constructed client (whose cache is always
non-nil): attempt the cache close, then — only when the client owns the
connection — attempt the connection close; `cacheErr` / `connErr` are the
failures those attempts would report. Returns the error returned to the
caller, whether the cache close was attempted, and whether the connection
close was attempted. -/
def clientClose (ownCC : Bool) (cacheErr connErr : Option String) :
    Option String × Bool × Bool :=
  let err : Option String :=
    match cacheErr with
    | some e2 => some e2
    | none => none
  if ownCC then
    match connErr with
    | some e2 => (some e2, true, true)
    | none => (err, true, true)
  else
    (err, true, false)

/-- A concrete backend record used to instantiate theorems. -/
def hd0 : HandleData :=
  { id := [0, 1, 2, 3, 4, 5, 6, 7, 8, 9, 10, 11, 12, 13, 14, 15]
    name := "task"
    nspace := "ns"
    expTime := { sec := 100, nsec := 500000000 }
    numAcquired := 1
    metadata := [("k", "v")] }

/-- A concrete backend oracle that always grants the lease `hd0`. -/
def bOK : AcquireBackend := fun _ _ _ _ _ => .ok hd0

/-- A concrete well-formed acquire request used to instantiate theorems. -/
def req0 : AcquireRequest :=
  { owner := "alice", name := "task", nspace := "ns", ttl := 60, metadata := [] }

/-- C1: for every `Acquire` request with non-empty owner and name, the
service adapter translates the backend's three-way outcome into a wire
response — `ErrAcquired` ↦ status HELD without a handle, `ErrDone` ↦
status DONE without a handle, success ↦ status OK with the full converted
handle record — and in every response it returns, a handle is present iff
the status is OK. -/
theorem serviceAcquire_translates_backend_outcome (b : AcquireBackend)
    (now : GoTime) (req : AcquireRequest)
    (hown : req.owner ≠ "") (hname : req.name ≠ "") :
    (b req.owner req.nspace req.name (expTime now req.ttl) req.metadata = .errAcquired →
      serviceAcquire b now req = (.ok { status := .HELD, handle := none }, 1)) ∧
    (b req.owner req.nspace req.name (expTime now req.ttl) req.metadata = .errDone →
      serviceAcquire b now req = (.ok { status := .DONE, handle := none }, 1)) ∧
    (∀ data, b req.owner req.nspace req.name (expTime now req.ttl) req.metadata = .ok data →
      serviceAcquire b now req =
        (.ok { status := .OK, handle := some (convertHandle data) }, 1)) ∧
    (∀ resp, (serviceAcquire b now req).1 = .ok resp →
      (resp.handle.isSome ↔ resp.status = .OK)) := by
  unfold serviceAcquire
  rw [if_neg hown, if_neg hname]
  refine ⟨fun h => by rw [h], fun h => by rw [h], fun data h => by rw [h], ?_⟩
  intro resp
  rcases hb : b req.owner req.nspace req.name (expTime now req.ttl) req.metadata with
    data | _ | _ | e <;> simp <;> intro h <;> rw [← h] <;> simp

/-- Closed instance of C1: the always-granting backend yields status OK
with the converted record on a well-formed request. -/
theorem serviceAcquire_translates_backend_outcome_witness :
    serviceAcquire bOK { sec := 0, nsec := 0 } req0 =
      (.ok { status := .OK, handle := some (convertHandle hd0) }, 1) :=
  (serviceAcquire_translates_backend_outcome bOK { sec := 0, nsec := 0 } req0
    (by decide) (by decide)).2.2.1 hd0 rfl

/-- C3: structurally invalid requests are rejected with an
invalid-argument failure before any backend call — `Acquire` with empty
owner or name, `Renew` / `Done` with empty owner or a handle identifier
that is not 16 bytes — and the backend invocation count is zero in every
such case. -/
theorem service_rejects_invalid_requests_before_backend
    (ba : AcquireBackend) (br : RenewBackend) (bd : DoneBackend) (now : GoTime)
    (req : AcquireRequest) (rreq : RenewRequest) (dreq : DoneRequest) :
    (req.owner = "" ∨ req.name = "" →
      (∃ msg, (serviceAcquire ba now req).1 = .error (.invalidArgument msg)) ∧
      (serviceAcquire ba now req).2 = 0) ∧
    (rreq.owner = "" ∨ rreq.handleId.length ≠ 16 →
      (∃ msg, (serviceRenew br now rreq).1 = .error (.invalidArgument msg)) ∧
      (serviceRenew br now rreq).2 = 0) ∧
    (dreq.owner = "" ∨ dreq.handleId.length ≠ 16 →
      (∃ msg, (serviceDone bd dreq).1 = .error (.invalidArgument msg)) ∧
      (serviceDone bd dreq).2 = 0) := by
  refine ⟨?_, ?_, ?_⟩
  · rintro (h | h)
    · unfold serviceAcquire
      rw [if_pos h]
      exact ⟨⟨"invalid owner", rfl⟩, rfl⟩
    · unfold serviceAcquire
      by_cases ho : req.owner = ""
      · rw [if_pos ho]
        exact ⟨⟨"invalid owner", rfl⟩, rfl⟩
      · rw [if_neg ho, if_pos h]
        exact ⟨⟨"invalid name", rfl⟩, rfl⟩
  · rintro (h | h)
    · unfold serviceRenew
      rw [if_pos h]
      exact ⟨⟨"invalid owner", rfl⟩, rfl⟩
    · unfold serviceRenew
      by_cases ho : rreq.owner = ""
      · rw [if_pos ho]
        exact ⟨⟨"invalid owner", rfl⟩, rfl⟩
      · rw [if_neg ho]
        unfold uuidFromBytes
        rw [if_neg h]
        exact ⟨⟨"invalid handle ID", rfl⟩, rfl⟩
  · rintro (h | h)
    · unfold serviceDone
      rw [if_pos h]
      exact ⟨⟨"invalid owner", rfl⟩, rfl⟩
    · unfold serviceDone
      by_cases ho : dreq.owner = ""
      · rw [if_pos ho]
        exact ⟨⟨"invalid owner", rfl⟩, rfl⟩
      · rw [if_neg ho]
        unfold uuidFromBytes
        rw [if_neg h]
        exact ⟨⟨"invalid handle ID", rfl⟩, rfl⟩

/-- Closed instance of C3: an empty-owner `Acquire`, a short-identifier
`Renew` and a short-identifier `Done` are all rejected without reaching
the backend. -/
theorem service_rejects_invalid_requests_before_backend_witness :
    ((∃ msg, (serviceAcquire bOK { sec := 0, nsec := 0 }
        { owner := "", name := "task", nspace := "", ttl := 1, metadata := [] }).1 =
        .error (.invalidArgument msg)) ∧
      (serviceAcquire bOK { sec := 0, nsec := 0 }
        { owner := "", name := "task", nspace := "", ttl := 1, metadata := [] }).2 = 0) ∧
    ((∃ msg, (serviceRenew (fun _ _ _ _ => none) { sec := 0, nsec := 0 }
        { owner := "alice", handleId := [1, 2, 3], ttl := 1, metadata := [] }).1 =
        .error (.invalidArgument msg)) ∧
      (serviceRenew (fun _ _ _ _ => none) { sec := 0, nsec := 0 }
        { owner := "alice", handleId := [1, 2, 3], ttl := 1, metadata := [] }).2 = 0) ∧
    ((∃ msg, (serviceDone (fun _ _ _ => none)
        { owner := "alice", handleId := [], metadata := [] }).1 =
        .error (.invalidArgument msg)) ∧
      (serviceDone (fun _ _ _ => none)
        { owner := "alice", handleId := [], metadata := [] }).2 = 0) := by
  have h := service_rejects_invalid_requests_before_backend bOK
    (fun _ _ _ _ => none) (fun _ _ _ => none) { sec := 0, nsec := 0 }
    { owner := "", name := "task", nspace := "", ttl := 1, metadata := [] }
    { owner := "alice", handleId := [1, 2, 3], ttl := 1, metadata := [] }
    { owner := "alice", handleId := [], metadata := [] }
  exact ⟨h.1 (Or.inl rfl), h.2.1 (Or.inr (by decide)), h.2.2 (Or.inr (by decide))⟩

/-- A concrete normalized configuration used to instantiate theorems. -/
def optA : ClientOptions :=
  { owner := "alice", nspace := "ns", ttl := tenMinutes, dir := "data" }

/-- A concrete client state whose cache holds the single name `done1`. -/
def c0 : ClientState := { opt := optA, cache := ["done1"], ownCC := false }

/-- A concrete remote oracle that always answers status HELD. -/
def rpcHeld : AcquireRPC := fun _ => .ok { status := .HELD, handle := none }

/-- A concrete remote oracle that answers status OK without a handle. -/
def rpcNilHandle : AcquireRPC := fun _ => .ok { status := .OK, handle := none }

/-- C2: when the cache misses and the remote `Acquire` yields a response,
the client maps HELD to `ErrAcquired` with the cache unchanged, DONE to an
insertion of the name into the cache followed by `ErrDone`, and OK (with a
well-formed 16-byte identifier) to a live handle built from the returned
identifier and metadata and the client's configuration. -/
theorem clientAcquire_maps_response_status (c : ClientState) (rpc : AcquireRPC)
    (name : String) (meta : Metadata) (res : AcquireResponse)
    (hmiss : cacheContains c.cache name = false)
    (hrpc : rpc (clientAcquireRequest c name meta) = .ok res) :
    (res.status = .HELD → clientAcquire c rpc name meta = (.errAcquired, c.cache, 1)) ∧
    (res.status = .DONE →
      clientAcquire c rpc name meta = (.errDone, cacheAdd c.cache name, 1)) ∧
    (∀ h, res.status = .OK → res.handle = some h → h.id.length = 16 →
      clientAcquire c rpc name meta =
        (.handle (newHandle h.id h.metadata c.opt), c.cache, 1)) := by
  unfold clientAcquire
  simp only [hmiss, Bool.false_eq_true, if_false, hrpc]
  refine ⟨fun h => by simp only [h], fun h => by simp only [h],
    fun hh hst hhd hlen => ?_⟩
  simp only [hst, hhd, uuidFromBytes, hlen, if_pos]

/-- Closed instance of C2: against the always-HELD oracle, a cache miss
ends in `ErrAcquired` with one remote call and an unchanged cache. -/
theorem clientAcquire_maps_response_status_witness :
    clientAcquire c0 rpcHeld "task" [] = (.errAcquired, ["done1"], 1) :=
  (clientAcquire_maps_response_status c0 rpcHeld "task" []
    { status := .HELD, handle := none } (by decide) rfl).1 rfl

/-- C5: a name already present in the cache makes the client's `Acquire`
fail immediately with `ErrDone`, leaving the cache unchanged and issuing
no remote call; the remote oracle is invoked (exactly once) only when the
cache lookup reports absence. -/
theorem clientAcquire_cache_hit_short_circuits (c : ClientState)
    (rpc : AcquireRPC) (name : String) (meta : Metadata) :
    (cacheContains c.cache name = true →
      clientAcquire c rpc name meta = (.errDone, c.cache, 0)) ∧
    (cacheContains c.cache name = false →
      (clientAcquire c rpc name meta).2.2 = 1) := by
  constructor
  · intro h
    unfold clientAcquire
    rw [h, if_pos rfl]
  · intro h
    unfold clientAcquire
    rw [h, if_neg (by decide : ¬ (false = true))]
    rcases hr : rpc (clientAcquireRequest c name meta) with e | res
    · rfl
    · rcases res with ⟨st, hd⟩
      rcases st <;> rcases hd with _ | hh
      all_goals
        first
          | rfl
          | (rcases huu : uuidFromBytes hh.id with _ | hid <;> simp [huu])

/-- Closed instance of C5: the cached name `done1` short-circuits to
`ErrDone` with zero remote calls. -/
theorem clientAcquire_cache_hit_short_circuits_witness :
    clientAcquire c0 rpcHeld "done1" [] = (.errDone, ["done1"], 0) :=
  (clientAcquire_cache_hit_short_circuits c0 rpcHeld "done1" []).1 (by decide)

/-- C10: on a status-OK response the client is panic-free exactly when the
response carries a handle whose identifier is 16 bytes: an absent handle
or an identifier of any other length makes `Acquire` panic rather than
return an error, and a 16-byte identifier yields a live handle. -/
theorem clientAcquire_ok_response_panics_without_valid_handle
    (c : ClientState) (rpc : AcquireRPC) (name : String) (meta : Metadata)
    (res : AcquireResponse)
    (hmiss : cacheContains c.cache name = false)
    (hrpc : rpc (clientAcquireRequest c name meta) = .ok res)
    (hst : res.status = .OK) :
    (res.handle = none → (clientAcquire c rpc name meta).1 = .panicked) ∧
    (∀ h, res.handle = some h → h.id.length ≠ 16 →
      (clientAcquire c rpc name meta).1 = .panicked) ∧
    (∀ h, res.handle = some h → h.id.length = 16 →
      (clientAcquire c rpc name meta).1 = .handle (newHandle h.id h.metadata c.opt)) := by
  unfold clientAcquire
  simp only [hmiss, Bool.false_eq_true, if_false, hrpc, hst]
  refine ⟨fun h => by simp only [h], fun hh hhd hlen => ?_, fun hh hhd hlen => ?_⟩
  · simp only [hhd, uuidFromBytes]
    rw [if_neg hlen]
  · simp only [hhd, uuidFromBytes]
    rw [if_pos hlen]

/-- Closed instance of C10: an OK response with no handle payload makes
the client panic. -/
theorem clientAcquire_ok_response_panics_witness :
    (clientAcquire c0 rpcNilHandle "task" []).1 = .panicked :=
  (clientAcquire_ok_response_panics_without_valid_handle c0 rpcNilHandle "task" []
    { status := .OK, handle := none } (by decide) rfl rfl).1 rfl

/-- C6: configuration normalization keeps a non-empty owner and otherwise
substitutes the freshly generated identifier, keeps a ttl of at least one
second and otherwise substitutes exactly ten minutes, and keeps a
non-empty directory and otherwise substitutes `"data"` — for every input
options value, with the namespace always passed through unchanged. -/
theorem norm_defaults (fresh : String) (o : ClientOptions) :
    (ClientOptions.norm fresh (some o)).owner =
      (if o.owner = "" then fresh else o.owner) ∧
    (ClientOptions.norm fresh (some o)).ttl =
      (if o.ttl < second then tenMinutes else o.ttl) ∧
    (ClientOptions.norm fresh (some o)).dir =
      (if o.dir = "" then "data" else o.dir) ∧
    (ClientOptions.norm fresh (some o)).nspace = o.nspace := by
  unfold ClientOptions.norm
  rcases o with ⟨ow, ns, t, d⟩
  simp only [Option.getD_some]
  by_cases h1 : ow = "" <;> by_cases h2 : t < second <;> by_cases h3 : d = "" <;>
    simp [h1, h2, h3]

/-- C9: the state-passing rendering of `norm` returns the caller's options
value unchanged (the Go method mutates only its local copy), and a nil
options pointer yields the fully defaulted configuration: the fresh
random owner, the empty namespace, a ten-minute ttl and directory
`"data"`. -/
theorem normSt_no_mutation_and_nil_defaults (fresh : String)
    (o : Option ClientOptions) :
    (ClientOptions.normSt fresh o).1 = o ∧
    ClientOptions.normSt fresh none =
      (none, { owner := fresh, nspace := "", ttl := tenMinutes, dir := "data" }) := by
  exact ⟨rfl, rfl⟩

/-- Modelled from the spec: the number of whole milliseconds since the
Unix epoch of an instant — the floor of its total nanosecond count
divided by one million. -/
def epochMillis (t : GoTime) : Int :=
  (t.sec * 1000000000 + (t.nsec : Int)) / 1000000

/-- A configuration whose ttl is 2^32 seconds — representable as a 64-bit
nanosecond duration and at least one second, hence kept by `norm`. -/
def bigTTLOptions : ClientOptions :=
  { owner := "o", nspace := "", ttl := 4294967296 * 1000000000, dir := "data" }

/-- Counterexample to C7 as stated: with a configured ttl of 2^32 seconds,
the ttl field of the wire request the client sends is 0 — the `uint32`
conversion wraps — and not the configured duration truncated to whole
seconds. -/
theorem clientTTL_truncation_counterexample :
    ¬ (((clientAcquireRequest { opt := bigTTLOptions, cache := [], ownCC := false }
          "t" []).ttl : Int) = bigTTLOptions.ttl.tdiv second) := by
  decide

/-- C7 (amended): the absolute expiration is computed server-side as the
server's current time plus the request ttl in whole seconds; the
expiration in every wire handle record is the backend expiration
converted to milliseconds since the Unix epoch; and the ttl the client
sends is its configured duration truncated to whole seconds reduced
modulo 2^32, which equals the plain truncation whenever the truncated
value fits an unsigned 32-bit integer. -/
theorem lease_time_semantics (now : GoTime) (ttl : Nat) (data : HandleData)
    (o : ClientOptions) :
    expTime now ttl = { sec := now.sec + (ttl : Int), nsec := now.nsec } ∧
    (convertHandle data).expTime = epochMillis data.expTime ∧
    ((o.ttlSeconds : Int) = (o.ttl.tdiv second) % (2 ^ 32 : Int)) ∧
    (0 ≤ o.ttl → o.ttl.tdiv second < 2 ^ 32 →
      (o.ttlSeconds : Int) = o.ttl.tdiv second) := by
  have hmod : (o.ttlSeconds : Int) = (o.ttl.tdiv second) % (2 ^ 32 : Int) := by
    unfold ClientOptions.ttlSeconds
    exact Int.toNat_of_nonneg
      (Int.emod_nonneg _ (by norm_num : (2 ^ 32 : Int) ≠ 0))
  refine ⟨rfl, ?_, hmod, ?_⟩
  · simp only [convertHandle, epochMillis]
    rw [Int.ofNat_ediv]
    rw [show data.expTime.sec * 1000000000 + (data.expTime.nsec : Int) =
        (data.expTime.nsec : Int) + (data.expTime.sec * 1000) * 1000000 by ring]
    rw [Int.add_mul_ediv_right _ _ (by norm_num : (1000000 : Int) ≠ 0)]
    push_cast
    ring
  · intro h0 hlt
    rw [hmod]
    exact Int.emod_eq_of_lt
      (Int.tdiv_nonneg h0 (by norm_num [second])) hlt

/-- Closed instance of C7 (amended): the conversion identity evaluated at
the concrete record `hd0`, the modulo-2^32 clause at the wrapping 2^32-second
configuration, and the in-range truncation clause at the concrete
ten-minute configuration. -/
theorem lease_time_semantics_witness :
    (convertHandle hd0).expTime = epochMillis hd0.expTime ∧
    ((bigTTLOptions.ttlSeconds : Int) =
      (bigTTLOptions.ttl.tdiv second) % (2 ^ 32 : Int)) ∧
    ((optA.ttlSeconds : Int) = optA.ttl.tdiv second) := by
  have h1 := lease_time_semantics { sec := 0, nsec := 0 } 60 hd0 bigTTLOptions
  have h2 := lease_time_semantics { sec := 0, nsec := 0 } 60 hd0 optA
  exact ⟨h1.2.1, h1.2.2.1, h2.2.2.2 (by decide) (by decide)⟩

/-- A clean stream hands the staged prefix plus every same-namespace
record name to the flush. -/
theorem fetchLoop_clean (ns : String) (hs : List WireHandle) (acc : List String) :
    fetchLoop ns acc hs none =
      .ok (acc ++ (hs.filter (fun h => h.nspace == ns)).map (fun h => h.name)) := by
  induction hs generalizing acc with
  | nil => simp [fetchLoop]
  | cons h rest ih =>
    by_cases hn : h.nspace = ns
    · simp [fetchLoop, hn, ih]
    · simp [fetchLoop, hn, ih]

/-- A receive error anywhere in the stream propagates and the staged
names are discarded. -/
theorem fetchLoop_err (ns : String) (hs : List WireHandle) (acc : List String)
    (e : String) : fetchLoop ns acc hs (some e) = .error e := by
  induction hs generalizing acc with
  | nil => rfl
  | cons h rest ih =>
    by_cases hn : h.nspace = ns
    · simp [fetchLoop, hn, ih]
    · simp [fetchLoop, hn, ih]

/-- Two concrete streamed records: one in the default (empty) namespace,
one in a different namespace sharing no more than the prefix. -/
def wh1 : WireHandle :=
  { id := hd0.id, name := "a", nspace := "", expTime := 0, numAcquired := 1,
    metadata := [] }

/-- A streamed record in a foreign namespace, to be excluded by the
bootstrap. -/
def wh2 : WireHandle :=
  { id := hd0.id, name := "b", nspace := "other", expTime := 0, numAcquired := 1,
    metadata := [] }

/-- A concrete `List` oracle streaming `wh1` and `wh2` then a clean EOF. -/
def listOK : ListRPC := fun _ => .ok ([wh1, wh2], none)

/-- C4: client construction issues one `List` call with the DONE filter at
the normalized namespace (the outcome depends on the oracle only at that
filter); on a cleanly terminated stream it returns a client whose cache
holds exactly the names of the records whose namespace equals the
client's, flushed only then; and on a listing error or a mid-stream error
it closes the freshly opened cache (flag `true`) and fails construction
with that error, returning no client. -/
theorem rpcClient_bootstrap (fresh : String) (opt : Option ClientOptions)
    (f : ListRPC) :
    (∀ g : ListRPC,
      g (doneFilter (ClientOptions.norm fresh opt).nspace) =
        f (doneFilter (ClientOptions.norm fresh opt).nspace) →
      rpcClient fresh opt g = rpcClient fresh opt f) ∧
    (∀ hs, f (doneFilter (ClientOptions.norm fresh opt).nspace) = .ok (hs, none) →
      rpcClient fresh opt f =
        (.ok { opt := ClientOptions.norm fresh opt
               cache := (hs.filter
                  (fun h => h.nspace == (ClientOptions.norm fresh opt).nspace)).map
                  (fun h => h.name)
               ownCC := false }, false)) ∧
    (∀ e, f (doneFilter (ClientOptions.norm fresh opt).nspace) = .error e →
      rpcClient fresh opt f = (.error e, true)) ∧
    (∀ hs e, f (doneFilter (ClientOptions.norm fresh opt).nspace) = .ok (hs, some e) →
      rpcClient fresh opt f = (.error e, true)) := by
  refine ⟨?_, ?_, ?_, ?_⟩
  · intro g hg
    unfold rpcClient fetchDone
    rw [hg]
  · intro hs hf
    unfold rpcClient fetchDone
    rw [hf]
    simp only [fetchLoop_clean, List.nil_append]
  · intro e hf
    unfold rpcClient fetchDone
    rw [hf]
  · intro hs e hf
    unfold rpcClient fetchDone
    rw [hf]
    simp only [fetchLoop_err]

/-- Closed instance of C4: bootstrapping against the two-record stream
keeps exactly the same-namespace name `a` and excludes the foreign-namespace
name `b`. -/
theorem rpcClient_bootstrap_witness :
    rpcClient "u" none listOK =
      (.ok { opt := ClientOptions.norm "u" none, cache := ["a"], ownCC := false },
        false) := by
  have h := (rpcClient_bootstrap "u" none listOK).2.1 [wh1, wh2] rfl
  rw [h]
  rfl

/-- C8: `Close` always attempts the cache close, attempts the connection
close exactly when the client owns the connection, and returns the last
failure among the attempted closes (the connection-close failure when it
was attempted and failed, otherwise the cache-close failure) or nothing;
a client built by `RPCClient` never owns the connection and one built by
`DialClient` always does. -/
theorem clientClose_last_error_and_ownership :
    (∀ (own : Bool) (ce ne : Option String),
      clientClose own ce ne = ((if own && ne.isSome then ne else ce), true, own)) ∧
    (∀ (fresh : String) (opt : Option ClientOptions) (f : ListRPC) (c : ClientState),
      (rpcClient fresh opt f).1 = .ok c → c.ownCC = false) ∧
    (∀ (fresh : String) (opt : Option ClientOptions) (d : Bool) (f : ListRPC)
      (c : ClientState), dialClient fresh opt d f = .ok c → c.ownCC = true) := by
  refine ⟨?_, ?_, ?_⟩
  · intro own ce ne
    rcases own <;> rcases ce <;> rcases ne <;> rfl
  · intro fresh opt f c h
    unfold rpcClient at h
    rcases hf : fetchDone (ClientOptions.norm fresh opt).nspace f with e | entries <;>
      rw [hf] at h
    · exact Except.noConfusion h
    · have h2 : ClientState.mk (ClientOptions.norm fresh opt) entries false = c :=
        Except.ok.inj h
      rw [← h2]
  · intro fresh opt d f c h
    unfold dialClient at h
    rcases d
    · simp only [Bool.false_eq_true, if_false] at h
      exact Except.noConfusion h
    · simp only [if_true] at h
      rcases hr : (rpcClient fresh opt f).1 with e | c2 <;> rw [hr] at h
      · exact Except.noConfusion h
      · have h2 : ClientState.mk c2.opt c2.cache true = c := Except.ok.inj h
        rw [← h2]

/-- Closed instance of C8: with both closes failing on an owning client the
connection-close failure is returned, and the two constructors mark
connection ownership as false resp. true. -/
theorem clientClose_last_error_and_ownership_witness :
    clientClose true (some "cache fail") (some "conn fail") =
      (some "conn fail", true, true) ∧
    ({ opt := ClientOptions.norm "u" none, cache := ["a"], ownCC := false } :
      ClientState).ownCC = false ∧
    ({ opt := ClientOptions.norm "u" none, cache := ["a"], ownCC := true } :
      ClientState).ownCC = true := by
  refine ⟨?_, ?_, ?_⟩
  · have h := clientClose_last_error_and_ownership.1 true (some "cache fail")
      (some "conn fail")
    simpa using h
  · exact clientClose_last_error_and_ownership.2.1 "u" none listOK _ rfl
  · exact clientClose_last_error_and_ownership.2.2 "u" none true listOK _ rfl

end Accord
